import Mathlib

/-!
A shallow embedding of `src/lobsters.py`, the scheduled job that scrapes the
Cousins Maine Lobster schedule page, extracts the San Francisco entries via an
LLM call, filters them against a persisted watermark date, and reconciles them
into a Google calendar (clear the covered date range, then insert one event per
entry).  External services (remote browser, LLM endpoint, calendar API) are
modelled as environments recording their responses; the calendar mutations a
run performs are collected as an explicit trace of API calls.
-/

namespace Lobsters

/- ## String order, Python style

Python compares strings lexicographically by Unicode code point.  We model
that order directly on the character lists so that every comparison is
kernel-computable. -/

/-- Code-point comparison of two characters (Python `a < b` on 1-char strings). -/
def chLt (a b : Char) : Bool := decide (a.toNat < b.toNat)

/-- Python lexicographic `<` on strings, at the character-list level:
shorter strict prefixes are smaller, otherwise the first differing
character decides. -/
def lexLt : List Char → List Char → Bool
  | [], [] => false
  | [], _ :: _ => true
  | _ :: _, [] => false
  | a :: as, b :: bs => if chLt a b then true else if chLt b a then false else lexLt as bs

/-- Python `a < b` on strings. -/
def strLt (a b : String) : Bool := lexLt a.data b.data

/-- Python `min(a, b)` on strings: returns `a` unless `b` is strictly smaller. -/
def strMin (a b : String) : String := if strLt b a then b else a

/-- Python `max(a, b)` on strings: returns `a` unless `b` is strictly larger. -/
def strMax (a b : String) : String := if strLt a b then b else a

/-- Split a character list at every occurrence of the separator `c`
(Python `s.split(c)` for a one-character separator). -/
def splitOnCh (c : Char) : List Char → List (List Char)
  | [] => [[]]
  | x :: xs =>
    match splitOnCh c xs with
    | [] => [[]]
    | y :: ys => if x == c then [] :: y :: ys else (x :: y) :: ys

/-- Python `s.split(c)` for a one-character separator. -/
def splitStr (c : Char) (s : String) : List String :=
  (splitOnCh c s.data).map String.mk

/-- Python `int(s)` restricted to decimal digit strings (the only inputs the
job feeds it: the `MM`, `DD`, `HH`, `MM` components of date and time keys). -/
def toNatD (s : String) : Nat :=
  s.data.foldl (fun n c => n * 10 + (c.toNat - 48)) 0

/- ## Data model -/

/-- One extracted schedule entry (a JSON object produced by the LLM with the
five required fields; `src/lobsters.py` lines 51-59). -/
structure ScheduleEntry where
  title : String
  location : String
  maps_url : String
  start_time : String
  end_time : String
deriving DecidableEq, Repr

/-- The `locations` mapping: date key `"MM-DD"` to the day's entries, in
insertion order (a Python dict). -/
abbrev Schedule := List (String × List ScheduleEntry)

/- ## Watermark filter and watermark persistence (lines 84-97) -/

/-- Lines 84-89: `if latest_parsed_date:` keep only the dates strictly greater
(Python string `>`) than the stored watermark; with no watermark the schedule
passes through unchanged. -/
def filterByWatermark (latest : Option String) (locations : Schedule) : Schedule :=
  match latest with
  | some w => locations.filter (fun p => strLt w p.1)
  | none => locations

/-- Python `max(dates)` over the extractor's observed-dates list. -/
def maxDate : List String → String
  | [] => ""
  | d :: ds => ds.foldl strMax d

/-- Lines 91-97: the final contents of `latest_parsed_date.json`.  The file is
rewritten with `max(all_dates)` only when the post-filter `locations` dict is
non-empty, `all_dates` is non-empty, and either no watermark was stored or the
new maximum strictly exceeds it; otherwise the file keeps its prior contents. -/
def updatedWatermarkFile (latest : Option String) (filtered : Schedule)
    (all_dates : List String) : Option String :=
  if !filtered.isEmpty && !all_dates.isEmpty then
    let newest := maxDate all_dates
    match latest with
    | none => some newest
    | some w => if strLt w newest then some newest else some w
  else latest

/- ## The extractor `extract_sf_locations` (lines 20-108) -/

/-- Outcomes of the external services the extractor talks to: the stored
watermark file, the Browserbase connection, the page fetch (navigation, the
`.detail-schedule` wait and the element capture), the Anthropic API call, and
the result of `json.loads` on the response text together with its `locations`
and `dates` fields (`none` when parsing fails or a key is missing, which
raises inside the `try`). -/
structure ExtractEnv where
  watermark : Option String
  connectOk : Bool
  fetchOk : Bool
  apiOk : Bool
  parsed : Option (Schedule × List String)

/-- What a call to `extract_sf_locations` did: the returned value (`none` for
the `except` path's `return None`), the final watermark-file contents, whether
the Browserbase session was established (the `browser =` assignment ran), and
whether `browser.close()` was called before returning. -/
structure ExtractResult where
  locations : Option Schedule
  watermarkFile : Option String
  browserEstablished : Bool
  browserClosed : Bool
deriving DecidableEq, Repr

/-- Lines 20-108 of `src/lobsters.py`.  Any failure inside the `try` lands in
the `except` block, which closes the browser when `'browser' in locals()` and
returns `None`; the success path filters by the watermark, conditionally
rewrites the watermark file, closes the browser and returns the filtered
`locations`. -/
def extract_sf_locations (env : ExtractEnv) : ExtractResult :=
  let latest := env.watermark
  if !env.connectOk then
    { locations := none, watermarkFile := latest
      browserEstablished := false, browserClosed := false }
  else if !env.fetchOk || !env.apiOk then
    { locations := none, watermarkFile := latest
      browserEstablished := true, browserClosed := true }
  else
    match env.parsed with
    | none =>
      { locations := none, watermarkFile := latest
        browserEstablished := true, browserClosed := true }
    | some (locations0, all_dates) =>
      let locations := filterByWatermark latest locations0
      { locations := some locations
        watermarkFile := updatedWatermarkFile latest locations all_dates
        browserEstablished := true, browserClosed := true }

/- ## Dates and times (Python `datetime` / `timedelta(days=1)`) -/

/-- A Python `datetime` value as the job builds them: year, month, day from a
`"MM-DD"` key, hour and minute from an `"HH:MM"` time. -/
structure DateTime where
  year : Nat
  month : Nat
  day : Nat
  hour : Nat
  minute : Nat
deriving DecidableEq, Repr

/-- Gregorian month lengths, as Python's `datetime` arithmetic uses them. -/
def daysInMonth (year month : Nat) : Nat :=
  if month = 2 then
    if (year % 4 = 0 && year % 100 != 0) || year % 400 = 0 then 29 else 28
  else if month = 4 || month = 6 || month = 9 || month = 11 then 30 else 31

/-- Python `dt + timedelta(days=1)`. -/
def addOneDay (d : DateTime) : DateTime :=
  if d.day < daysInMonth d.year d.month then { d with day := d.day + 1 }
  else if d.month < 12 then { d with month := d.month + 1, day := 1 }
  else { d with year := d.year + 1, month := 1, day := 1 }

/-- `datetime(year, int(key.split('-')[0]), int(key.split('-')[1]))`:
midnight of a `"MM-DD"` date key in the given year. -/
def dateFromKey (year : Nat) (key : String) : DateTime :=
  let parts := splitStr '-' key
  { year := year, month := toNatD (parts.headD ""), day := toNatD (parts.getD 1 "")
    hour := 0, minute := 0 }

/-- `*map(int, t.split(':'))`: the hour and minute of an `"HH:MM"` time. -/
def timeParts (t : String) : Nat × Nat :=
  let parts := splitStr ':' t
  (toNatD (parts.headD ""), toNatD (parts.getD 1 ""))

/- ## Python `sorted` on the schedule's date keys (line 164) -/

/-- Insert a key into an already sorted key list, keeping ascending order. -/
def insertKey (k : String) : List String → List String
  | [] => [k]
  | x :: xs => if strLt x k then x :: insertKey k xs else k :: x :: xs

/-- Python `sorted(schedule.keys())`: ascending insertion sort under the
string order. -/
def sortKeys : List String → List String
  | [] => []
  | k :: ks => insertKey k (sortKeys ks)

/-- Python `l[-1]` with a default for the empty list (`dates[-1]` on line 167;
`create_events` only ever runs on a non-empty schedule). -/
def lastD (d : String) : List String → String
  | [] => d
  | [x] => x
  | _ :: x :: xs => lastD d (x :: xs)

/-- Python `min(iterable)` over date keys (first minimal element). -/
def minKeyOf : List String → String
  | [] => ""
  | k :: ks => ks.foldl strMin k

/-- Python `max(iterable)` over date keys (first maximal element). -/
def maxKeyOf : List String → String
  | [] => ""
  | k :: ks => ks.foldl strMax k

/- ## The calendar API trace -/

/-- The body handed to `events().insert` (lines 185-204); the description is
built from the location and maps URL, and the maps URL is attached again as
the event's source link. -/
structure EventBody where
  summary : String
  location : String
  description : String
  startDT : DateTime
  endDT : DateTime
  sourceUrl : String
deriving DecidableEq, Repr

/-- One Google Calendar API call made by the job.  `calendarId` is optional
because `FoodTruckCalendar.calendar_id` starts out as Python `None` and is
only assigned when the persisted id file exists. -/
inductive CalCall where
  | getCal (calendarId : Option String)
  | listEvents (calendarId : Option String) (timeMin timeMax : DateTime)
  | deleteEvent (calendarId : Option String) (eventId : String)
  | insertEvent (calendarId : Option String) (body : EventBody)
deriving DecidableEq, Repr

/-- Whether a call is an `events().insert`. -/
def CalCall.isInsert : CalCall → Bool
  | .insertEvent _ _ => true
  | _ => false

/-- Responses of the calendar service during reconciliation: whether
`events().list` raises, which event ids it returns, and which
`events().delete` calls raise. -/
structure CalEnv where
  listFails : Bool
  existingEvents : List String
  failingDeletes : List String

/-- The delete loop of `clear_existing_events` (lines 152-156): deletes run in
listing order until the first failing one; that delete's exception jumps to
the function's single `except` handler, so no later event is attempted. -/
def attemptDeletes (calId : Option String) (failing : List String) :
    List String → List CalCall
  | [] => []
  | e :: rest =>
    if failing.contains e then [CalCall.deleteEvent calId e]
    else CalCall.deleteEvent calId e :: attemptDeletes calId failing rest

/-- Lines 143-159: list the events between the two bounds, then delete each in
turn; the whole body sits in one `try`, whose `except` logs and returns, so
the function itself never raises. -/
def clear_existing_events (calId : Option String) (env : CalEnv)
    (start_date end_date : DateTime) : List CalCall :=
  if env.listFails then [CalCall.listEvents calId start_date end_date]
  else CalCall.listEvents calId start_date end_date ::
    attemptDeletes calId env.failingDeletes env.existingEvents

/-- Lines 175-204: the event body built for one entry of one date key. -/
def eventBodyFor (year : Nat) (dateKey : String) (e : ScheduleEntry) : EventBody :=
  let d := dateFromKey year dateKey
  let st := timeParts e.start_time
  let en := timeParts e.end_time
  { summary := e.title
    location := e.location
    description := "📍 " ++ e.location ++ "\n\n🗺 Maps: " ++ e.maps_url
    startDT := { d with hour := st.1, minute := st.2 }
    endDT := { d with hour := en.1, minute := en.2 }
    sourceUrl := e.maps_url }

/-- Lines 161-211, `FoodTruckCalendar.create_events`: compute the clearing
range from the sorted date keys (`dates[0]` and `dates[-1]` plus one day),
clear it, then insert one event per entry.  Each insert sits in its own
`try`/`except`, so every insert is attempted regardless of earlier failures;
`year` defaults to 2024. -/
def create_events (calId : Option String) (env : CalEnv) (schedule : Schedule)
    (year : Nat := 2024) : List CalCall :=
  let dates := sortKeys (schedule.map Prod.fst)
  let start_date := dateFromKey year (dates.headD "")
  let end_date := addOneDay (dateFromKey year (lastD "" dates))
  clear_existing_events calId env start_date end_date ++
    schedule.flatMap (fun p => p.2.map (fun e => CalCall.insertEvent calId (eventBodyFor year p.1 e)))

/- ## Calendar identity and the run entry point -/

/-- Lines 131-141, `FoodTruckCalendar.get_or_create_calendar`: when the id
file exists, read the id and call `calendars().get`; on failure raise (the
run dies with "Saved calendar not found, and creating a new one is not
allowed.").  When the file does not exist the function falls through and
returns with `calendar_id` still `None`.  Returns the calendar calls made and
either the resulting `calendar_id` or the raised error. -/
def get_or_create_calendar (idFile : Option String) (resolves : String → Bool) :
    List CalCall × Except String (Option String) :=
  match idFile with
  | some id =>
    ([CalCall.getCal (some id)],
      if resolves id then Except.ok (some id)
      else Except.error "Saved calendar not found, and creating a new one is not allowed.")
  | none => ([], Except.ok none)

/-- How a run of `update_calendar` ends: the early `return` after a falsy
extraction result, an uncaught exception from `get_or_create_calendar`, or
the final success print. -/
inductive RunOutcome where
  | extractionFailed
  | calendarNotFound
  | completed
deriving DecidableEq, Repr

/-- The external world of one `update_calendar` run. -/
structure RunEnv where
  extract : ExtractEnv
  calendarIdFile : Option String
  calendarResolves : String → Bool
  cal : CalEnv

/-- What a run did: every calendar API call in order, whether
`authenticate()` ran, and how the run ended. -/
structure RunResult where
  trace : List CalCall
  authenticated : Bool
  outcome : RunOutcome

/-- Lines 219-237, `update_calendar`: extract; on a falsy result (`None` or an
empty dict) print and return without touching credentials or the calendar;
otherwise authenticate, resolve the calendar id, and run `create_events` with
its default year. -/
def update_calendar (env : RunEnv) : RunResult :=
  let ext := extract_sf_locations env.extract
  match ext.locations with
  | none => { trace := [], authenticated := false, outcome := .extractionFailed }
  | some sf_locations =>
    if sf_locations.isEmpty then
      { trace := [], authenticated := false, outcome := .extractionFailed }
    else
      let gc := get_or_create_calendar env.calendarIdFile env.calendarResolves
      match gc.2 with
      | .error _ => { trace := gc.1, authenticated := true, outcome := .calendarNotFound }
      | .ok calId =>
        { trace := gc.1 ++ create_events calId env.cal sf_locations
          authenticated := true, outcome := .completed }

/- ## The Schedule Validator (spec section 4.2)

`src/lobsters.py` carries only the placeholder comment `# Add validation`
(line 99) where this stage belongs; the stage itself is not in `src/`. -/

/-- A raw extracted entry before validation: a JSON object, i.e. a
field-name/value association list in which any of the five required fields
may be absent. -/
abbrev RawEntry := List (String × String)

/-- The five required per-event fields. -/
def requiredFields : List String :=
  ["title", "location", "maps_url", "start_time", "end_time"]

/-- Does a raw entry contain every one of the five required fields? -/
def hasAllRequired (e : RawEntry) : Bool :=
  requiredFields.all (fun k => (e.lookup k).isSome)

/-- Does the second list start with the first? -/
def leadMatch : List Char → List Char → Bool
  | [], _ => true
  | _ :: _, [] => false
  | a :: as, b :: bs => a == b && leadMatch as bs

/-- Does `hay` contain `needle` as a contiguous substring? -/
def containsSub (needle : List Char) : List Char → Bool
  | [] => needle.isEmpty
  | x :: xs => leadMatch needle (x :: xs) || containsSub needle xs

/-- Locale filter: the entry's title contains the target city name. -/
def titleContainsCity (city : String) (e : RawEntry) : Bool :=
  match e.lookup "title" with
  | some t => containsSub city.data t.data
  | none => false

/-- A date key splits into exactly two "-"-joined non-empty numeric
components. -/
def validKey (k : String) : Bool :=
  match splitStr '-' k with
  | [a, b] => !a.isEmpty && !b.isEmpty && a.data.all Char.isDigit && b.data.all Char.isDigit
  | _ => false

/-- Modelled from the spec: the Schedule Validator of section 4.2 is absent
from `src/lobsters.py` (only the `# Add validation` placeholder at line 99
marks its place).  Rejects the input when some key is not two numeric
"-"-joined components; per date keeps only entries with all five required
fields whose title passes the locale filter; drops dates left empty; and
signals `ValidationFailure` (`none`) when nothing survives. -/
def validate_schedule (city : String) (raw : List (String × List RawEntry)) :
    Option (List (String × List RawEntry)) :=
  if !(raw.all (fun p => validKey p.1)) then none
  else
    let filtered := (raw.map (fun p =>
      (p.1, p.2.filter (fun e => hasAllRequired e && titleContainsCity city e)))).filter
      (fun p => !p.2.isEmpty)
    if filtered.isEmpty then none else some filtered

/-- A complete extracted entry used by concrete run environments. -/
def sampleEntry : ScheduleEntry :=
  { title := "Cousins Maine Lobster - SF Ferry Building"
    location := "1 Ferry Building, San Francisco"
    maps_url := "https://maps.example/ferry"
    start_time := "11:00", end_time := "14:00" }

/-- A raw entry with all five fields whose title names San Francisco. -/
def goodRawEntry : RawEntry :=
  [("title", "Cousins Maine Lobster - San Francisco Ferry Building"),
   ("location", "1 Ferry Building"), ("maps_url", "https://maps.example/ferry"),
   ("start_time", "11:00"), ("end_time", "14:00")]

/-- A raw entry whose `start_time` field is absent. -/
def missingEntry : RawEntry :=
  [("title", "Cousins Maine Lobster - San Francisco Pier"),
   ("location", "Pier 39"), ("maps_url", "https://maps.example/pier"),
   ("end_time", "14:00")]

/-- A raw schedule holding one complete and one incomplete entry. -/
def c1raw : List (String × List RawEntry) := [("11-19", [goodRawEntry, missingEntry])]

/-- A run whose calendar-id file is absent; extraction succeeds with one entry
and the calendar service fails the (id-less) listing call. -/
def c2run : RunEnv :=
  { extract := { watermark := none, connectOk := true, fetchOk := true, apiOk := true
                 parsed := some ([("11-19", [sampleEntry])], ["11-19"]) }
    calendarIdFile := none
    calendarResolves := fun _ => false
    cal := { listFails := true, existingEvents := [], failingDeletes := [] } }

/-- A calendar state in which the first listed event's deletion fails. -/
def c3cal : CalEnv :=
  { listFails := false, existingEvents := ["e1", "e2"], failingDeletes := ["e1"] }

/-- An extraction in which the watermark filter drops every date ("11-19" is
not newer than the stored "11-20") while the observed dates reach "11-25". -/
def c4env : ExtractEnv :=
  { watermark := some "11-20", connectOk := true, fetchOk := true, apiOk := true
    parsed := some ([("11-19", [sampleEntry])], ["11-19", "11-25"]) }

/-- An extraction whose filtered schedule is non-empty and whose maximum
observed date strictly exceeds the stored watermark. -/
def c4adv : ExtractEnv :=
  { watermark := some "11-20", connectOk := true, fetchOk := true, apiOk := true
    parsed := some ([("11-21", [sampleEntry])], ["11-21"]) }

/-- The spec's watermark-filter example: watermark "11-20" and input dates
"11-19", "11-21", "11-22". -/
def c5env : ExtractEnv :=
  { watermark := some "11-20", connectOk := true, fetchOk := true, apiOk := true
    parsed := some ([("11-19", [sampleEntry]), ("11-21", [sampleEntry]),
      ("11-22", [sampleEntry])], ["11-19", "11-21", "11-22"]) }

/-- A calendar state with one existing event and no failures. -/
def c6cal : CalEnv := { listFails := false, existingEvents := ["old1"], failingDeletes := [] }

/-- A two-day schedule given in reverse chronological order. -/
def c6schedule : Schedule := [("11-21", [sampleEntry]), ("11-19", [sampleEntry])]

/-- A run in which the extraction response is not parseable JSON. -/
def c7run : RunEnv :=
  { extract := { watermark := none, connectOk := true, fetchOk := true, apiOk := true
                 parsed := none }
    calendarIdFile := some "cal-id", calendarResolves := fun _ => true
    cal := { listFails := false, existingEvents := [], failingDeletes := [] } }

/-- A fully successful run against a resolvable persisted calendar id. -/
def c9run : RunEnv :=
  { extract := { watermark := none, connectOk := true, fetchOk := true, apiOk := true
                 parsed := some ([("11-19", [sampleEntry])], ["11-19"]) }
    calendarIdFile := some "cal-id", calendarResolves := fun _ => true
    cal := { listFails := false, existingEvents := [], failingDeletes := [] } }

/-- A run in which the watermark filter drops every extracted date. -/
def c10run : RunEnv :=
  { extract := { watermark := some "11-20", connectOk := true, fetchOk := true, apiOk := true
                 parsed := some ([("11-19", [sampleEntry])], ["11-19"]) }
    calendarIdFile := some "cal-id", calendarResolves := fun _ => true
    cal := { listFails := false, existingEvents := ["stale"], failingDeletes := [] } }

/- ## Order lemmas for the Python string comparison -/

theorem chLt_irrefl (a : Char) : chLt a a = false := by simp [chLt]

theorem chLt_asymm {a b : Char} (h : chLt a b = true) : chLt b a = false := by
  simp [chLt] at h ⊢
  omega

theorem chLt_trans {a b c : Char} (h1 : chLt a b = true) (h2 : chLt b c = true) :
    chLt a c = true := by
  simp [chLt] at h1 h2 ⊢
  omega

theorem chLt_eq {a b : Char} (h1 : chLt a b = false) (h2 : chLt b a = false) : a = b := by
  simp [chLt] at h1 h2
  exact Char.eq_of_val_eq (UInt32.eq_of_val_eq (Fin.ext (Nat.le_antisymm h2 h1)))

theorem lexLt_irrefl : ∀ l : List Char, lexLt l l = false
  | [] => rfl
  | a :: as => by simp [lexLt, chLt_irrefl, lexLt_irrefl as]

theorem lexLt_asymm : ∀ a b : List Char, lexLt a b = true → lexLt b a = false
  | [], [] => by simp [lexLt]
  | [], _ :: _ => by simp [lexLt]
  | _ :: _, [] => by simp [lexLt]
  | a :: as, b :: bs => by
    by_cases hab : chLt a b = true
    · simp [lexLt, hab, chLt_asymm hab]
    · by_cases hba : chLt b a = true
      · simp [lexLt, hab, hba]
      · have heq : a = b := chLt_eq (by simpa using hab) (by simpa using hba)
        subst heq
        simp [lexLt, chLt_irrefl]
        exact lexLt_asymm as bs

theorem lexLt_eq : ∀ a b : List Char, lexLt a b = false → lexLt b a = false → a = b
  | [], [], _, _ => rfl
  | [], _ :: _, h1, _ => by simp [lexLt] at h1
  | _ :: _, [], _, h2 => by simp [lexLt] at h2
  | a :: as, b :: bs, h1, h2 => by
    by_cases hab : chLt a b = true
    · simp [lexLt, hab] at h1
    · by_cases hba : chLt b a = true
      · simp [lexLt, hba, hab] at h2
      · have heq : a = b := chLt_eq (by simpa using hab) (by simpa using hba)
        subst heq
        simp only [lexLt, chLt_irrefl, if_neg Bool.false_ne_true] at h1 h2
        rw [lexLt_eq as bs (by simpa using h1) (by simpa using h2)]

theorem lexLt_trans : ∀ a b c : List Char,
    lexLt a b = true → lexLt b c = true → lexLt a c = true
  | [], [], _, h1, _ => by simp [lexLt] at h1
  | [], _ :: _, [], _, h2 => by simp [lexLt] at h2
  | [], _ :: _, _ :: _, _, _ => by simp [lexLt]
  | _ :: _, [], _, h1, _ => by simp [lexLt] at h1
  | _ :: _, _ :: _, [], _, h2 => by simp [lexLt] at h2
  | a :: as, b :: bs, c :: cs, h1, h2 => by
    by_cases hab : chLt a b = true
    · by_cases hbc : chLt b c = true
      · simp [lexLt, chLt_trans hab hbc]
      · by_cases hcb : chLt c b = true
        · simp [lexLt, hbc, hcb] at h2
        · have heq : b = c := chLt_eq (by simpa using hbc) (by simpa using hcb)
          subst heq
          simp [lexLt, hab]
    · by_cases hba : chLt b a = true
      · simp [lexLt, hab, hba] at h1
      · have heq : a = b := chLt_eq (by simpa using hab) (by simpa using hba)
        subst heq
        simp only [lexLt, chLt_irrefl, if_neg Bool.false_ne_true] at h1
        by_cases hbc : chLt a c = true
        · simp [lexLt, hbc]
        · by_cases hcb : chLt c a = true
          · simp [lexLt, hbc, hcb] at h2
          · have heq2 : a = c := chLt_eq (by simpa using hbc) (by simpa using hcb)
            subst heq2
            simp only [lexLt, chLt_irrefl, if_neg Bool.false_ne_true] at h2 ⊢
            exact lexLt_trans as bs cs h1 h2

theorem strLt_irrefl (a : String) : strLt a a = false := lexLt_irrefl a.data

theorem strLt_asymm {a b : String} (h : strLt a b = true) : strLt b a = false :=
  lexLt_asymm a.data b.data h

theorem strLt_eq {a b : String} (h1 : strLt a b = false) (h2 : strLt b a = false) :
    a = b := by
  cases a with
  | mk da =>
    cases b with
    | mk db => exact congrArg String.mk (lexLt_eq da db h1 h2)

theorem strLt_trans {a b c : String} (h1 : strLt a b = true) (h2 : strLt b c = true) :
    strLt a c = true :=
  lexLt_trans a.data b.data c.data h1 h2

/-- Transitivity in the `≤` direction: if `a` is not below `b` and `b` is not
below `c`, then `a` is not below `c` (reading `strLt x y = false` as `y ≤ x`). -/
theorem notLt_trans {a b c : String} (h1 : strLt b a = false) (h2 : strLt c b = false) :
    strLt c a = false := by
  by_contra hc
  rw [Bool.not_eq_false] at hc
  by_cases hbc : strLt b c = true
  · exact absurd (strLt_trans hbc hc) (by simp [h1])
  · have heq : c = b := strLt_eq h2 (by simpa using hbc)
    subst heq
    simp [hc] at h1

/- ## Sorting lemmas: the head and last of `sortKeys` are the min and max -/

theorem mem_insertKey {x k : String} : ∀ {l : List String},
    x ∈ insertKey k l ↔ x = k ∨ x ∈ l
  | [] => by simp [insertKey]
  | y :: ys => by
    by_cases h : strLt y k = true
    · simp only [insertKey, if_pos h, List.mem_cons, mem_insertKey (l := ys)]
      tauto
    · simp only [insertKey, if_neg h, List.mem_cons]

theorem insertKey_ne_nil (k : String) : ∀ l : List String, insertKey k l ≠ []
  | [] => by simp [insertKey]
  | y :: ys => by by_cases h : strLt y k = true <;> simp [insertKey, h]

theorem sortKeys_ne_nil : ∀ {l : List String}, l ≠ [] → sortKeys l ≠ []
  | [], h => absurd rfl h
  | k :: ks, _ => by simpa [sortKeys] using insertKey_ne_nil k (sortKeys ks)

theorem mem_sortKeys {x : String} : ∀ {l : List String}, x ∈ sortKeys l ↔ x ∈ l
  | [] => Iff.rfl
  | k :: ks => by simp [sortKeys, mem_insertKey, mem_sortKeys (l := ks)]

theorem headD_mem {l : List String} (h : l ≠ []) : l.headD "" ∈ l := by
  cases l with
  | nil => exact absurd rfl h
  | cons a t => simp

theorem lastD_mem : ∀ {l : List String}, l ≠ [] → lastD "" l ∈ l
  | [], h => absurd rfl h
  | [_], _ => by simp [lastD]
  | x :: y :: ys, _ => List.mem_cons_of_mem x (lastD_mem (List.cons_ne_nil y ys))

theorem pairwise_insertKey (k : String) : ∀ l : List String,
    l.Pairwise (fun a b => strLt b a = false) →
    (insertKey k l).Pairwise (fun a b => strLt b a = false)
  | [], _ => by simp [insertKey]
  | y :: ys, hp => by
    have hp' := List.pairwise_cons.mp hp
    by_cases h : strLt y k = true
    · simp only [insertKey, if_pos h]
      refine List.pairwise_cons.mpr ⟨?_, pairwise_insertKey k ys hp'.2⟩
      intro z hz
      rcases mem_insertKey.mp hz with rfl | hzys
      · exact strLt_asymm h
      · exact hp'.1 z hzys
    · simp only [insertKey, if_neg h]
      refine List.pairwise_cons.mpr ⟨?_, hp⟩
      intro z hz
      rcases List.mem_cons.mp hz with rfl | hzys
      · simpa using h
      · exact notLt_trans (by simpa using h) (hp'.1 z hzys)

theorem sortKeys_pairwise : ∀ l : List String,
    (sortKeys l).Pairwise (fun a b => strLt b a = false)
  | [] => List.Pairwise.nil
  | k :: ks => pairwise_insertKey k (sortKeys ks) (sortKeys_pairwise ks)

theorem head_lb : ∀ l : List String, l.Pairwise (fun a b => strLt b a = false) →
    ∀ x ∈ l, strLt x (l.headD "") = false
  | [], _, x, hx => absurd hx (List.not_mem_nil x)
  | y :: ys, hp, x, hx => by
    rcases List.mem_cons.mp hx with rfl | hxs
    · simp [strLt_irrefl]
    · simpa using (List.pairwise_cons.mp hp).1 x hxs

theorem last_ub : ∀ l : List String, l.Pairwise (fun a b => strLt b a = false) →
    ∀ x ∈ l, strLt (lastD "" l) x = false
  | [], _, x, hx => absurd hx (List.not_mem_nil x)
  | [y], _, x, hx => by
    simp at hx
    subst hx
    simp [lastD, strLt_irrefl]
  | y :: y2 :: ys, hp, x, hx => by
    have hp' := List.pairwise_cons.mp hp
    rcases List.mem_cons.mp hx with rfl | hxs
    · exact hp'.1 _ (lastD_mem (List.cons_ne_nil y2 ys))
    · exact last_ub (y2 :: ys) hp'.2 x hxs

theorem foldl_strMin_mem : ∀ (ks : List String) (k : String),
    ks.foldl strMin k ∈ k :: ks
  | [], k => by simp
  | k2 :: rest, k => by
    rw [List.foldl_cons]
    rcases List.mem_cons.mp (foldl_strMin_mem rest (strMin k k2)) with he | hr
    · rw [he]
      unfold strMin
      by_cases hlt : strLt k2 k = true
      · simp [hlt]
      · simp [hlt]
    · exact List.mem_cons_of_mem _ (List.mem_cons_of_mem _ hr)

theorem foldl_strMax_mem : ∀ (ks : List String) (k : String),
    ks.foldl strMax k ∈ k :: ks
  | [], k => by simp
  | k2 :: rest, k => by
    rw [List.foldl_cons]
    rcases List.mem_cons.mp (foldl_strMax_mem rest (strMax k k2)) with he | hr
    · rw [he]
      unfold strMax
      by_cases hlt : strLt k k2 = true
      · simp [hlt]
      · simp [hlt]
    · exact List.mem_cons_of_mem _ (List.mem_cons_of_mem _ hr)

theorem strMin_le_left (k k2 : String) : strLt k (strMin k k2) = false := by
  unfold strMin
  by_cases hlt : strLt k2 k = true
  · rw [if_pos hlt]
    exact strLt_asymm hlt
  · rw [if_neg hlt]
    exact strLt_irrefl k

theorem strMin_le_right (k k2 : String) : strLt k2 (strMin k k2) = false := by
  unfold strMin
  by_cases hlt : strLt k2 k = true
  · rw [if_pos hlt]
    exact strLt_irrefl k2
  · rw [if_neg hlt]
    simpa using hlt

theorem strMax_ge_left (k k2 : String) : strLt (strMax k k2) k = false := by
  unfold strMax
  by_cases hlt : strLt k k2 = true
  · rw [if_pos hlt]
    exact strLt_asymm hlt
  · rw [if_neg hlt]
    exact strLt_irrefl k

theorem strMax_ge_right (k k2 : String) : strLt (strMax k k2) k2 = false := by
  unfold strMax
  by_cases hlt : strLt k k2 = true
  · rw [if_pos hlt]
    exact strLt_irrefl k2
  · rw [if_neg hlt]
    simpa using hlt

theorem foldl_strMin_lb : ∀ (ks : List String) (k x : String), x ∈ k :: ks →
    strLt x (ks.foldl strMin k) = false
  | [], k, x, hx => by
    simp at hx
    subst hx
    simp [strLt_irrefl]
  | k2 :: rest, k, x, hx => by
    rw [List.foldl_cons]
    have hhead : strLt (strMin k k2) (rest.foldl strMin (strMin k k2)) = false :=
      foldl_strMin_lb rest (strMin k k2) _ (List.mem_cons_self _ _)
    rcases List.mem_cons.mp hx with rfl | hxs
    · exact notLt_trans hhead (strMin_le_left x k2)
    · rcases List.mem_cons.mp hxs with rfl | hxr
      · exact notLt_trans hhead (strMin_le_right k x)
      · exact foldl_strMin_lb rest (strMin k k2) x (List.mem_cons_of_mem _ hxr)

theorem foldl_strMax_ub : ∀ (ks : List String) (k x : String), x ∈ k :: ks →
    strLt (ks.foldl strMax k) x = false
  | [], k, x, hx => by
    simp at hx
    subst hx
    simp [strLt_irrefl]
  | k2 :: rest, k, x, hx => by
    rw [List.foldl_cons]
    have hhead : strLt (rest.foldl strMax (strMax k k2)) (strMax k k2) = false :=
      foldl_strMax_ub rest (strMax k k2) _ (List.mem_cons_self _ _)
    rcases List.mem_cons.mp hx with rfl | hxs
    · exact notLt_trans (strMax_ge_left x k2) hhead
    · rcases List.mem_cons.mp hxs with rfl | hxr
      · exact notLt_trans (strMax_ge_right k x) hhead
      · exact foldl_strMax_ub rest (strMax k k2) x (List.mem_cons_of_mem _ hxr)

/-- The first element of Python `sorted(keys)` is Python `min(keys)`. -/
theorem sortKeys_headD_eq_min (l : List String) (h : l ≠ []) :
    (sortKeys l).headD "" = minKeyOf l := by
  obtain ⟨k, ks, rfl⟩ : ∃ k ks, l = k :: ks := by
    cases l with
    | nil => exact absurd rfl h
    | cons k ks => exact ⟨k, ks, rfl⟩
  have hne : sortKeys (k :: ks) ≠ [] := sortKeys_ne_nil (List.cons_ne_nil k ks)
  have hdMem : (sortKeys (k :: ks)).headD "" ∈ k :: ks := mem_sortKeys.mp (headD_mem hne)
  have minMem : minKeyOf (k :: ks) ∈ k :: ks := foldl_strMin_mem ks k
  have h1 : strLt (minKeyOf (k :: ks)) ((sortKeys (k :: ks)).headD "") = false :=
    head_lb _ (sortKeys_pairwise _) _ (mem_sortKeys.mpr minMem)
  have h2 : strLt ((sortKeys (k :: ks)).headD "") (minKeyOf (k :: ks)) = false :=
    foldl_strMin_lb ks k _ hdMem
  exact strLt_eq h2 h1

/-- The last element of Python `sorted(keys)` is Python `max(keys)`. -/
theorem sortKeys_lastD_eq_max (l : List String) (h : l ≠ []) :
    lastD "" (sortKeys l) = maxKeyOf l := by
  obtain ⟨k, ks, rfl⟩ : ∃ k ks, l = k :: ks := by
    cases l with
    | nil => exact absurd rfl h
    | cons k ks => exact ⟨k, ks, rfl⟩
  have hne : sortKeys (k :: ks) ≠ [] := sortKeys_ne_nil (List.cons_ne_nil k ks)
  have lastMem : lastD "" (sortKeys (k :: ks)) ∈ k :: ks := mem_sortKeys.mp (lastD_mem hne)
  have maxMem : maxKeyOf (k :: ks) ∈ k :: ks := foldl_strMax_mem ks k
  have h1 : strLt (lastD "" (sortKeys (k :: ks))) (maxKeyOf (k :: ks)) = false :=
    last_ub _ (sortKeys_pairwise _) _ (mem_sortKeys.mpr maxMem)
  have h2 : strLt (maxKeyOf (k :: ks)) (lastD "" (sortKeys (k :: ks))) = false :=
    foldl_strMax_ub ks k _ lastMem
  exact strLt_eq h1 h2

/- ## Helper lemmas about the calendar trace -/

theorem attemptDeletes_not_insert (calId : Option String) (failing : List String) :
    ∀ l : List String, ∀ c ∈ attemptDeletes calId failing l, c.isInsert = false
  | [], c, hc => absurd hc (List.not_mem_nil c)
  | e :: rest, c, hc => by
    unfold attemptDeletes at hc
    by_cases hf : failing.contains e = true
    · rw [if_pos hf] at hc
      simp at hc
      subst hc
      rfl
    · rw [if_neg hf] at hc
      rcases List.mem_cons.mp hc with rfl | hr
      · rfl
      · exact attemptDeletes_not_insert calId failing rest c hr

theorem clear_not_insert (calId : Option String) (env : CalEnv) (s e : DateTime) :
    ∀ c ∈ clear_existing_events calId env s e, c.isInsert = false := by
  intro c hc
  unfold clear_existing_events at hc
  by_cases hl : env.listFails = true
  · rw [if_pos hl] at hc
    simp at hc
    subst hc
    rfl
  · rw [if_neg hl] at hc
    rcases List.mem_cons.mp hc with rfl | hr
    · rfl
    · exact attemptDeletes_not_insert calId env.failingDeletes env.existingEvents c hr

theorem get_or_create_not_insert (idFile : Option String) (resolves : String → Bool) :
    ∀ c ∈ (get_or_create_calendar idFile resolves).1, c.isInsert = false := by
  intro c hc
  cases idFile with
  | none => exact absurd hc (List.not_mem_nil c)
  | some id =>
    simp [get_or_create_calendar] at hc
    subst hc
    rfl

/-- The deletes attempted by the clearing loop are exactly the events up to
and including the first one whose deletion fails. -/
theorem attemptDeletes_eq (calId : Option String) (failing : List String) :
    ∀ l : List String,
      attemptDeletes calId failing l =
        ((l.takeWhile (fun x => !(failing.contains x)) ++
          (l.dropWhile (fun x => !(failing.contains x))).take 1).map
          (fun x => CalCall.deleteEvent calId x))
  | [] => rfl
  | e :: rest => by
    by_cases hf : e ∈ failing
    · simp [attemptDeletes, List.takeWhile_cons, List.dropWhile_cons, hf]
    · simp [attemptDeletes, List.takeWhile_cons, List.dropWhile_cons, hf,
        attemptDeletes_eq calId failing rest]

/-- Every event body inserted by `create_events` carries the year it was
called with, in both its start and end datetimes. -/
theorem create_events_insert_year (calId : Option String) (cal : CalEnv)
    (sched : Schedule) (year : Nat) (cid : Option String) (body : EventBody)
    (hmem : CalCall.insertEvent cid body ∈ create_events calId cal sched year) :
    body.startDT.year = year ∧ body.endDT.year = year := by
  simp only [create_events] at hmem
  rcases List.mem_append.mp hmem with hcl | hins
  · have := clear_not_insert _ _ _ _ _ hcl
    simp [CalCall.isInsert] at this
  · simp only [List.mem_flatMap, List.mem_map] at hins
    obtain ⟨p, _, e, _, heq⟩ := hins
    cases heq
    exact ⟨rfl, rfl⟩

/- ## The claims -/

/-- C8: the remote browser session is closed on an exit path of
`extract_sf_locations` exactly when it was established on that path: both on
success and on every exception raised after the `browser =` assignment, the
session is closed (and when the connection itself fails there is no session
to close). -/
theorem browser_closed_on_every_exit (env : ExtractEnv) :
    (extract_sf_locations env).browserClosed = (extract_sf_locations env).browserEstablished := by
  rcases env with ⟨w, c, f, a, p⟩
  cases c <;> cases f <;> cases a <;>
    rcases p with _ | ⟨l, d⟩ <;> simp [extract_sf_locations]

/-- C5: on a successful extraction, the watermark filter returns the schedule
unchanged when no watermark is stored, and otherwise keeps exactly the
entries whose date key is lexicographically greater than the watermark. -/
theorem watermark_filter_exact (env : ExtractEnv) (locs : Schedule) (dates : List String)
    (hc : env.connectOk = true) (hf : env.fetchOk = true) (ha : env.apiOk = true)
    (hp : env.parsed = some (locs, dates)) :
    (env.watermark = none → (extract_sf_locations env).locations = some locs) ∧
    ∀ w, env.watermark = some w →
      (extract_sf_locations env).locations = some (locs.filter (fun p => strLt w p.1)) := by
  constructor
  · intro hw
    simp [extract_sf_locations, hc, hf, ha, hp, filterByWatermark, hw]
  · intro w hw
    simp [extract_sf_locations, hc, hf, ha, hp, filterByWatermark, hw]

/-- Witness for C5, the spec's example: watermark "11-20" against dates
"11-19", "11-21", "11-22" keeps exactly "11-21" and "11-22". -/
theorem watermark_filter_exact_witness :
    (extract_sf_locations c5env).locations =
      some [("11-21", [sampleEntry]), ("11-22", [sampleEntry])] := by
  have h := (watermark_filter_exact c5env
    [("11-19", [sampleEntry]), ("11-21", [sampleEntry]), ("11-22", [sampleEntry])]
    ["11-19", "11-21", "11-22"] rfl rfl rfl rfl).2 "11-20" rfl
  rw [h]
  decide

/-- C7: when the extraction response fails to parse as JSON (or lacks the
expected keys), the run ends as an extraction failure, never authenticates,
and makes zero calendar API calls. -/
theorem malformed_json_zero_calendar_calls (env : RunEnv)
    (hp : env.extract.parsed = none) :
    (update_calendar env).trace = [] ∧ (update_calendar env).authenticated = false ∧
    (update_calendar env).outcome = RunOutcome.extractionFailed := by
  obtain ⟨⟨w, c, f, a, p⟩, idf, res, cal⟩ := env
  simp only at hp
  subst hp
  cases c <;> cases f <;> cases a <;> simp [update_calendar, extract_sf_locations]

/-- Witness for C7 at a concrete unparseable response. -/
theorem malformed_json_zero_calendar_calls_witness :
    (update_calendar c7run).trace = [] ∧ (update_calendar c7run).authenticated = false ∧
    (update_calendar c7run).outcome = RunOutcome.extractionFailed :=
  malformed_json_zero_calendar_calls c7run rfl

/-- C1: any raw entry missing one of the five required fields is rejected by
the validation stage and appears under no date of the DaySchedule it passes
on, whichever field is missing. -/
theorem validator_rejects_missing_field (city : String)
    (raw out : List (String × List RawEntry)) (hval : validate_schedule city raw = some out)
    (e : RawEntry) (hmiss : hasAllRequired e = false) :
    ∀ d es, (d, es) ∈ out → e ∉ es := by
  intro d es hmem hin
  unfold validate_schedule at hval
  by_cases hk : raw.all (fun p => validKey p.1) = true
  · rw [hk] at hval
    simp only [Bool.not_true, Bool.false_eq_true, if_false] at hval
    split at hval
    · exact absurd hval (by simp)
    · rw [Option.some_inj] at hval
      subst hval
      rcases List.mem_filter.mp hmem with ⟨hmem2, _⟩
      rcases List.mem_map.mp hmem2 with ⟨p, _, hpe⟩
      cases hpe
      have hkept := (List.mem_filter.mp hin).2
      simp [hmiss] at hkept
  · simp only [Bool.not_eq_true] at hk
    rw [hk] at hval
    simp at hval

/-- Witness for C1: an entry with no `start_time` is dropped while the
complete entry under the same date survives. -/
theorem validator_rejects_missing_field_witness :
    missingEntry ∉ [goodRawEntry] ∧
    validate_schedule "San Francisco" c1raw = some [("11-19", [goodRawEntry])] := by
  constructor
  · exact validator_rejects_missing_field "San Francisco" c1raw
      [("11-19", [goodRawEntry])] (by decide) missingEntry (by decide)
      "11-19" [goodRawEntry] (by decide)
  · decide

/-- C2, at the failing input: with the calendar-id file absent,
`get_or_create_calendar` returns without raising, the run keeps going with a
`None` calendar id, attempts to clear and insert events, and even reports
completion — instead of failing fast before any event mutation. -/
theorem missing_calendar_id_file_still_runs :
    (update_calendar c2run).outcome = RunOutcome.completed ∧
    (update_calendar c2run).trace.any CalCall.isInsert = true ∧
    CalCall.listEvents none (dateFromKey 2024 "11-19")
      (addOneDay (dateFromKey 2024 "11-19")) ∈ (update_calendar c2run).trace := by
  decide

/-- C3 counterexample: with existing events "e1", "e2" and the deletion of
"e1" failing, the clearing phase stops after "e1": the delete of "e2" is
never attempted, contradicting the claim that all subsequent deletions are
still attempted. -/
theorem delete_failure_skips_remaining :
    clear_existing_events (some "cal") c3cal
        (dateFromKey 2024 "11-19") (addOneDay (dateFromKey 2024 "11-21")) =
      [CalCall.listEvents (some "cal") (dateFromKey 2024 "11-19")
        (addOneDay (dateFromKey 2024 "11-21")),
       CalCall.deleteEvent (some "cal") "e1"] ∧
    CalCall.deleteEvent (some "cal") "e2" ∉
      clear_existing_events (some "cal") c3cal
        (dateFromKey 2024 "11-19") (addOneDay (dateFromKey 2024 "11-21")) := by
  decide

/-- C3 amended: when the listing succeeds, the clearing phase attempts the
deletes in listing order only up to and including the first failing event —
one failure aborts the remaining deletions (the whole loop shares a single
exception handler), though the run itself continues. -/
theorem clear_deletes_stop_at_first_failure (calId : Option String) (env : CalEnv)
    (s e : DateTime) (hl : env.listFails = false) :
    clear_existing_events calId env s e =
      CalCall.listEvents calId s e ::
        ((env.existingEvents.takeWhile (fun x => !(env.failingDeletes.contains x)) ++
          (env.existingEvents.dropWhile (fun x => !(env.failingDeletes.contains x))).take 1).map
          (fun x => CalCall.deleteEvent calId x)) := by
  unfold clear_existing_events
  rw [hl]
  rw [if_neg (by simp)]
  rw [attemptDeletes_eq]

/-- Witness for C3's amended statement at a concrete calendar state: deletes
stop right after the failing "e1". -/
theorem clear_deletes_stop_at_first_failure_witness :
    clear_existing_events (some "cal") c3cal
        (dateFromKey 2024 "11-19") (addOneDay (dateFromKey 2024 "11-21")) =
      CalCall.listEvents (some "cal") (dateFromKey 2024 "11-19")
          (addOneDay (dateFromKey 2024 "11-21")) ::
        ((c3cal.existingEvents.takeWhile (fun x => !(c3cal.failingDeletes.contains x)) ++
          (c3cal.existingEvents.dropWhile (fun x => !(c3cal.failingDeletes.contains x))).take 1).map
          (fun x => CalCall.deleteEvent (some "cal") x)) :=
  clear_deletes_stop_at_first_failure (some "cal") c3cal
    (dateFromKey 2024 "11-19") (addOneDay (dateFromKey 2024 "11-21")) rfl

/-- C4 counterexample: with watermark "11-20", a schedule whose only date
"11-19" is filtered out, and observed dates up to "11-25", the code leaves
the watermark file at "11-20" even though max(existing, max observed) is
"11-25" and strictly exceeds the stored value — so the new watermark is
neither that maximum nor persisted when it strictly advances. -/
theorem watermark_not_advanced_when_filtered_empty :
    (extract_sf_locations c4env).watermarkFile = some "11-20" ∧
    strMax "11-20" (maxDate ["11-19", "11-25"]) = "11-25" ∧
    strLt "11-20" (maxDate ["11-19", "11-25"]) = true ∧
    (extract_sf_locations c4env).watermarkFile ≠
      some (strMax "11-20" (maxDate ["11-19", "11-25"])) := by
  decide

/-- C4 amended: on a successful extraction the watermark file changes exactly
when the post-filter schedule is non-empty, the observed-dates list is
non-empty, and the maximum observed date strictly exceeds the stored
watermark (or none was stored); and whenever it changes, the new value is the
maximum of the observed dates. -/
theorem watermark_persistence_policy (env : ExtractEnv) (locs : Schedule)
    (dates : List String) (hc : env.connectOk = true) (hf : env.fetchOk = true)
    (ha : env.apiOk = true) (hp : env.parsed = some (locs, dates)) :
    ((extract_sf_locations env).watermarkFile ≠ env.watermark ↔
      filterByWatermark env.watermark locs ≠ [] ∧ dates ≠ [] ∧
        ∀ w, env.watermark = some w → strLt w (maxDate dates) = true) ∧
    ((extract_sf_locations env).watermarkFile ≠ env.watermark →
      (extract_sf_locations env).watermarkFile = some (maxDate dates)) := by
  have hres : (extract_sf_locations env).watermarkFile =
      updatedWatermarkFile env.watermark (filterByWatermark env.watermark locs) dates := by
    simp [extract_sf_locations, hc, hf, ha, hp]
  rw [hres]
  unfold updatedWatermarkFile
  by_cases hfe : (filterByWatermark env.watermark locs).isEmpty = true
  · rw [hfe]
    simp only [Bool.not_true, Bool.false_and, Bool.false_eq_true, if_false]
    constructor
    · constructor
      · intro hne
        exact absurd rfl hne
      · intro ⟨h1, _, _⟩
        exact absurd (List.isEmpty_iff.mp hfe) h1
    · intro hne
      exact absurd rfl hne
  · have hfe0 : (filterByWatermark env.watermark locs).isEmpty = false := by
      simpa using hfe
    by_cases hde : dates.isEmpty = true
    · rw [hfe0, hde]
      simp only [Bool.not_true, Bool.and_false, Bool.false_eq_true, if_false]
      constructor
      · constructor
        · intro hne
          exact absurd rfl hne
        · intro ⟨_, h2, _⟩
          exact absurd (List.isEmpty_iff.mp hde) h2
      · intro hne
        exact absurd rfl hne
    · have hde0 : dates.isEmpty = false := by
        simpa using hde
      rw [hfe0, hde0]
      simp only [Bool.not_false, Bool.and_self, if_true]
      have hfe' : filterByWatermark env.watermark locs ≠ [] := by
        simpa [List.isEmpty_iff] using hfe
      have hde' : dates ≠ [] := by
        simpa [List.isEmpty_iff] using hde
      cases hw : env.watermark with
      | none =>
        rw [hw] at hfe'
        dsimp only
        refine ⟨⟨fun _ => ⟨hfe', hde', ?_⟩, fun _ => by simp⟩, fun _ => rfl⟩
        intro w hww
        exact absurd hww (by simp)
      | some w =>
        rw [hw] at hfe'
        dsimp only
        by_cases hlt : strLt w (maxDate dates) = true
        · rw [if_pos hlt]
          have hne : maxDate dates ≠ w := by
            intro he
            rw [he] at hlt
            simp [strLt_irrefl] at hlt
          refine ⟨⟨fun _ => ⟨hfe', hde', fun v hv => ?_⟩, fun _ => ?_⟩, fun _ => rfl⟩
          · rw [Option.some_inj] at hv
            subst hv
            exact hlt
          · simp [hne]
        · rw [if_neg hlt]
          refine ⟨⟨fun hne => absurd rfl hne, fun ⟨_, _, hstrict⟩ => ?_⟩,
            fun hne => absurd rfl hne⟩
          exact absurd (hstrict w rfl) hlt

/-- Witness for C4's amended statement: with watermark "11-20" and a
surviving date "11-21", the file advances to "11-21". -/
theorem watermark_persistence_policy_witness :
    (extract_sf_locations c4adv).watermarkFile = some (maxDate ["11-21"]) :=
  (watermark_persistence_policy c4adv [("11-21", [sampleEntry])] ["11-21"]
    rfl rfl rfl rfl).2 (by decide)

/-- C6: for every non-empty schedule, the range handed to the clearing phase
is exactly [minimum date key at 00:00, maximum date key + 1 day at 00:00),
and all clearing calls precede every insert. -/
theorem clear_range_spans_schedule (calId : Option String) (env : CalEnv)
    (schedule : Schedule) (year : Nat) (h : schedule ≠ []) :
    ∃ inserts : List CalCall,
      create_events calId env schedule year =
        clear_existing_events calId env
          (dateFromKey year (minKeyOf (schedule.map Prod.fst)))
          (addOneDay (dateFromKey year (maxKeyOf (schedule.map Prod.fst)))) ++ inserts ∧
      (∀ c ∈ clear_existing_events calId env
          (dateFromKey year (minKeyOf (schedule.map Prod.fst)))
          (addOneDay (dateFromKey year (maxKeyOf (schedule.map Prod.fst)))),
        c.isInsert = false) ∧
      (∀ c ∈ inserts, c.isInsert = true) := by
  have hmap : schedule.map Prod.fst ≠ [] := by
    intro he
    exact h (List.map_eq_nil_iff.mp he)
  refine ⟨schedule.flatMap (fun p => p.2.map
    (fun e => CalCall.insertEvent calId (eventBodyFor year p.1 e))), ?_, ?_, ?_⟩
  · simp only [create_events]
    rw [sortKeys_headD_eq_min _ hmap, sortKeys_lastD_eq_max _ hmap]
  · exact clear_not_insert _ _ _ _
  · intro c hc
    simp only [List.mem_flatMap, List.mem_map] at hc
    obtain ⟨p, _, e, _, heq⟩ := hc
    rw [← heq]
    rfl

/-- Witness for C6 on a concrete two-day schedule given out of order. -/
theorem clear_range_spans_schedule_witness :
    ∃ inserts : List CalCall,
      create_events (some "cal") c6cal c6schedule 2024 =
        clear_existing_events (some "cal") c6cal
          (dateFromKey 2024 (minKeyOf (c6schedule.map Prod.fst)))
          (addOneDay (dateFromKey 2024 (maxKeyOf (c6schedule.map Prod.fst)))) ++ inserts ∧
      (∀ c ∈ clear_existing_events (some "cal") c6cal
          (dateFromKey 2024 (minKeyOf (c6schedule.map Prod.fst)))
          (addOneDay (dateFromKey 2024 (maxKeyOf (c6schedule.map Prod.fst)))),
        c.isInsert = false) ∧
      (∀ c ∈ inserts, c.isInsert = true) :=
  clear_range_spans_schedule (some "cal") c6cal c6schedule 2024 (by decide)

/-- C9: every event body the job ever inserts has its start and end datetimes
built with year 2024: `create_events` defaults the year to 2024 and
`update_calendar` never passes one. -/
theorem events_fixed_year_2024 (env : RunEnv) (cid : Option String) (body : EventBody)
    (hmem : CalCall.insertEvent cid body ∈ (update_calendar env).trace) :
    body.startDT.year = 2024 ∧ body.endDT.year = 2024 := by
  simp only [update_calendar] at hmem
  split at hmem
  · simp at hmem
  · split at hmem
    · simp at hmem
    · split at hmem
      · have := get_or_create_not_insert env.calendarIdFile env.calendarResolves _ hmem
        simp [CalCall.isInsert] at this
      · rcases List.mem_append.mp hmem with h1 | h2
        · have := get_or_create_not_insert env.calendarIdFile env.calendarResolves _ h1
          simp [CalCall.isInsert] at this
        · exact create_events_insert_year _ _ _ _ _ _ h2

/-- Witness for C9: the one event of a concrete successful run carries
year 2024. -/
theorem events_fixed_year_2024_witness :
    CalCall.insertEvent (some "cal-id") (eventBodyFor 2024 "11-19" sampleEntry) ∈
      (update_calendar c9run).trace ∧
    (eventBodyFor 2024 "11-19" sampleEntry).startDT.year = 2024 ∧
    (eventBodyFor 2024 "11-19" sampleEntry).endDT.year = 2024 :=
  ⟨by decide, events_fixed_year_2024 c9run (some "cal-id") _ (by decide)⟩

/-- C10: when the watermark filter drops every extracted date, the run treats
the empty mapping as a failed extraction: it never authenticates and makes
zero calendar API calls. -/
theorem empty_after_filter_aborts (env : RunEnv) (locs : Schedule) (dates : List String)
    (hc : env.extract.connectOk = true) (hf : env.extract.fetchOk = true)
    (ha : env.extract.apiOk = true) (hp : env.extract.parsed = some (locs, dates))
    (hempty : filterByWatermark env.extract.watermark locs = []) :
    (update_calendar env).trace = [] ∧ (update_calendar env).authenticated = false ∧
    (update_calendar env).outcome = RunOutcome.extractionFailed := by
  have hloc : (extract_sf_locations env.extract).locations = some [] := by
    simp [extract_sf_locations, hc, hf, ha, hp, hempty]
  simp [update_calendar, hloc]

/-- Witness for C10: stored watermark "11-20" filters out the lone date
"11-19" and the run aborts untouched. -/
theorem empty_after_filter_aborts_witness :
    (update_calendar c10run).trace = [] ∧ (update_calendar c10run).authenticated = false ∧
    (update_calendar c10run).outcome = RunOutcome.extractionFailed :=
  empty_after_filter_aborts c10run [("11-19", [sampleEntry])] ["11-19"]
    rfl rfl rfl rfl (by decide)

end Lobsters
